import Mathlib

/-!
Verification of the kubemngr install pipeline (`cmd/install.go`).

The Go code is shallowly embedded: the filesystem is a map from paths to
files, the network is a function from URLs to an `HttpResult` — a
GET-time transport error, or a chunkwise-delivered body that may be cut
off by a mid-stream copy failure — and the third-party content sniffer
(`filetype.IsArchive`) is an abstract boolean predicate on byte
sequences.  `DownloadKubectl` mirrors the control flow of the Go
function of the same name, recording the externally observable actions
(stat, create, platform detection, HTTP GET, verification, report,
remove, chmod, rename) as an ordered event list, together with the
final filesystem and the outcome of the attempt.
-/

namespace Kubemngr

/-- A file on disk: its byte content and its permission mode. -/
structure File where
  content : List Nat
  mode : Nat
deriving DecidableEq, Repr

/-- The filesystem: a map from paths to files. -/
abbrev FS := String → Option File

/-- Write (create or overwrite) a file at a path. -/
def setFile (fs : FS) (p : String) (f : File) : FS :=
  fun q => if q = p then some f else fs q

/-- Delete the file at a path (`os.Remove`). -/
def delFile (fs : FS) (p : String) : FS :=
  fun q => if q = p then none else fs q

/-- Raw host identification, as returned by `getOSInfo` in the source. -/
structure Uname where
  sysname : String
  machine : String
deriving DecidableEq, Repr

/-- The terminal outcome of one install attempt.  Every `log.Fatal` /
`os.Exit` site in the Go code becomes one constructor. -/
inductive Outcome where
  | emptyVersion
  | alreadyInstalled
  | unsupportedOS (s : String)
  | unsupportedArch (s : String)
  | networkError
  | invalidBinaryContent
  | success
deriving DecidableEq, Repr

/-- Observable actions of one install attempt, in program order. -/
inductive Event where
  | stat (p : String)
  | create (p : String)
  | detect
  | httpGet (url : String)
  | verify (p : String)
  | report (m : String)
  | remove (p : String)
  | chmod (p : String) (mode : Nat)
  | rename (src dst : String)
deriving DecidableEq, Repr

/-- Result of one run of `DownloadKubectl`: the ordered event trace,
the final filesystem, and the outcome. -/
structure InstallResult where
  events : List Event
  fs : FS
  outcome : Outcome

/-- `homeDir + "/.kubemngr/kubectl-" + version` (install.go line 98). -/
def storePath (homeDir version : String) : String :=
  homeDir ++ "/.kubemngr/kubectl-" ++ version

/-- The download URL template of install.go line 129, with the three
`%v` substitutions applied in order: version, os, arch. -/
def kubectlURL (version sys machine : String) : String :=
  "https://storage.googleapis.com/kubernetes-release/release/" ++ version ++
    "/bin/" ++ sys ++ "/" ++ machine ++ "/kubectl"

/-- `strings.ToLower`, modelled characterwise over the string's
character sequence. -/
def strLower (s : String) : String := ⟨s.data.map Char.toLower⟩

/-- Negation of the OS rejection test of install.go line 114:
`uname.Sysname != "Linux" && uname.Sysname != "Darwin"`. -/
def osSupported (s : String) : Bool :=
  s == "Linux" || s == "Darwin"

/-- Negation of the arch rejection test of install.go line 117:
`uname.Machine != "arm" && uname.Machine != "arm64" && uname.Machine != "x86_64"`. -/
def archSupported (m : String) : Bool :=
  m == "arm" || m == "arm64" || m == "x86_64"

/-- The machine mapping of install.go lines 122-127: `"x86_64"` becomes
`"amd64"`, anything else is lowercased. -/
def mapMachine (m : String) : String :=
  if m == "x86_64" then "amd64" else strLower m

/-- The message printed on verifier rejection (install.go line 149). -/
def invalidBinaryMsg : String :=
  "failed to download kubectl file. Are you sure you specified the right version?"

/-- Mode of a file made by `os.Create` (0666 before umask). -/
def createMode : Nat := 0o666

/-- Outcome of one `http.Get` plus the subsequent `io.Copy` stream.
`fail` is a transport error of `http.Get` itself (install.go line 131,
before anything is written).  `body chunks interrupted` is a response
whose body `io.Copy` reads and writes chunkwise: `chunks` are exactly
the chunks that reach the destination file; `interrupted = true` means
the next read then errors (line 139), so the copy dies after the
listed chunks were already written, while `interrupted = false` means
the stream ended normally and `chunks` is the whole body. -/
inductive HttpResult where
  | fail
  | body (chunks : List (List Nat)) (interrupted : Bool)
deriving DecidableEq, Repr

/-- Shallow embedding of `DownloadKubectl` (install.go lines 81-169).
Inputs: the home directory, the initial filesystem, the host `uname`
data, the network (an `HttpResult` per URL, covering GET-time transport
errors and mid-stream copy failures), the content sniffer
(`filetype.IsArchive`), and the requested version. -/
def DownloadKubectl (homeDir : String) (fs0 : FS) (un : Uname)
    (http : String → HttpResult) (isArchive : List Nat → Bool)
    (version : String) : InstallResult :=
  -- line 88: `if len(version) == 0 { log.Fatal(0) }`
  if version.length = 0 then
    { events := [], fs := fs0, outcome := .emptyVersion }
  else
    let path := storePath homeDir version
    -- line 98: `os.Stat(...)`; err == nil means the file exists
    if (fs0 path).isSome then
      { events := [.stat path], fs := fs0, outcome := .alreadyInstalled }
    else
      -- line 103: `os.Create(...)` makes an empty file at the final path
      let fs1 := setFile fs0 path ⟨[], createMode⟩
      -- line 111: `getOSInfo()`; lines 114-118: platform validation
      if !osSupported un.sysname then
        { events := [.stat path, .create path, .detect], fs := fs1,
          outcome := .unsupportedOS un.sysname }
      else if !archSupported un.machine then
        { events := [.stat path, .create path, .detect], fs := fs1,
          outcome := .unsupportedArch un.machine }
      else
        -- lines 121-127: normalize os and arch
        let sys := strLower un.sysname
        let machine := mapMachine un.machine
        -- lines 129-130: build the URL and issue the GET
        let url := kubectlURL version sys machine
        match http url with
        | .fail =>
          -- lines 131-133: `http.Get` errors; nothing was written yet
          { events := [.stat path, .create path, .detect, .httpGet url],
            fs := fs1, outcome := .networkError }
        | .body chunks interrupted =>
          -- line 138: `io.Copy` streams the delivered chunks into the file
          let content := chunks.flatten
          let fs2 := setFile fs1 path ⟨content, createMode⟩
          if interrupted then
            -- lines 139-141: the copy errors mid-stream; the partially
            -- written bytes stay at the final path
            { events := [.stat path, .create path, .detect, .httpGet url],
              fs := fs2, outcome := .networkError }
          else
          -- lines 145-152: read back and sniff; on failure print, remove, exit
          if !isArchive content then
            { events := [.stat path, .create path, .detect, .httpGet url,
                .verify path, .report invalidBinaryMsg, .remove path],
              fs := delFile fs2 path, outcome := .invalidBinaryContent }
          else
            -- line 155: chmod 0755; lines 160-163: self-rename (a no-op)
            { events := [.stat path, .create path, .detect, .httpGet url,
                .verify path, .chmod path 0o755, .rename path path],
              fs := setFile fs2 path ⟨content, 0o755⟩, outcome := .success }

/-- `a` occurs in the trace, and the (first occurrence of) `a` is
followed later by an occurrence of `b`. -/
def occursBefore (a b : Event) : List Event → Bool
  | [] => false
  | e :: rest => if e = a then decide (b ∈ rest) else occursBefore a b rest

/-- 2^64, the modulus of Go's `uint64` arithmetic. -/
def u64Mod : Nat := 18446744073709551616

/-- One `WriteCounter.Write` call (install.go lines 40-45) starting from
counter value `wc` on chunk `p`: returns the updated counter (which is
also the value reported by the `PrintProgress` call inside `Write`) and
the returned length `n`. -/
def wcWrite (wc : Nat) (p : List Nat) : Nat × Nat :=
  let n := p.length
  ((wc + n) % u64Mod, n)

/-- A sequence of `WriteCounter.Write` calls on the chunks, in order,
starting from counter value `wc`: the final counter value and the list
of values reported by `PrintProgress`, one per write, in order. -/
def runWrites (wc : Nat) : List (List Nat) → Nat × List Nat
  | [] => (wc, [])
  | c :: rest =>
    let t := (wcWrite wc c).1
    let r := runWrites t rest
    (r.1, t :: r.2)

/-- Exact running totals (no wraparound) of a list of sizes, starting
from `acc`: the mathematical partial sums the spec describes. -/
def runningTotals (acc : Nat) : List Nat → List Nat
  | [] => []
  | s :: rest => (acc + s) :: runningTotals (acc + s) rest

/-- Claim C3: if a file already exists at the store path for `version`
before the install call, the attempt fails with `AlreadyInstalled`, no
HTTP request is issued, and the filesystem — in particular the existing
file's bytes — is left completely unchanged. -/
theorem C3_already_installed (homeDir : String) (fs0 : FS) (un : Uname)
    (http : String → HttpResult) (isArchive : List Nat → Bool)
    (version : String) (hv : version.length ≠ 0)
    (hex : (fs0 (storePath homeDir version)).isSome = true) :
    (DownloadKubectl homeDir fs0 un http isArchive version).outcome =
      Outcome.alreadyInstalled ∧
    (DownloadKubectl homeDir fs0 un http isArchive version).events =
      [Event.stat (storePath homeDir version)] ∧
    (∀ u, Event.httpGet u ∉
      (DownloadKubectl homeDir fs0 un http isArchive version).events) ∧
    (DownloadKubectl homeDir fs0 un http isArchive version).fs = fs0 := by
  unfold DownloadKubectl
  simp [hv, hex]

/-- Witness for C3 at a concrete store: version "1.18.0" is already
present, the attempt is rejected and the store is untouched. -/
theorem C3_witness :
    (DownloadKubectl "/h"
      (fun p => if p = storePath "/h" "1.18.0" then some ⟨[7], 0o755⟩ else none)
      ⟨"Linux", "x86_64"⟩ (fun _ => HttpResult.body [[1]] false) (fun _ => true) "1.18.0").outcome =
      Outcome.alreadyInstalled ∧
    (DownloadKubectl "/h"
      (fun p => if p = storePath "/h" "1.18.0" then some ⟨[7], 0o755⟩ else none)
      ⟨"Linux", "x86_64"⟩ (fun _ => HttpResult.body [[1]] false) (fun _ => true) "1.18.0").fs =
      (fun p => if p = storePath "/h" "1.18.0" then some ⟨[7], 0o755⟩ else none) := by
  have h := C3_already_installed "/h"
    (fun p => if p = storePath "/h" "1.18.0" then some ⟨[7], 0o755⟩ else none)
    ⟨"Linux", "x86_64"⟩ (fun _ => HttpResult.body [[1]] false) (fun _ => true) "1.18.0"
    (by decide) (by decide)
  exact ⟨h.1, h.2.2.2⟩

/-- Claim C4: the architecture mapping sends `"x86_64"` to `"amd64"`,
sends `"arm"` and `"arm64"` to themselves (their lowercasing), and any
other machine string is rejected: it fails the supported-arch test and
an install attempt on a Linux host with that machine fails with the
unsupported-arch error. -/
theorem C4_arch_mapping (m : String) (h1 : m ≠ "arm") (h2 : m ≠ "arm64")
    (h3 : m ≠ "x86_64") (homeDir : String) (fs0 : FS)
    (http : String → HttpResult) (isArchive : List Nat → Bool)
    (version : String) (hv : version.length ≠ 0)
    (hfree : fs0 (storePath homeDir version) = none) :
    mapMachine "x86_64" = "amd64" ∧
    mapMachine "arm" = "arm" ∧ mapMachine "arm64" = "arm64" ∧
    archSupported "arm" = true ∧ archSupported "arm64" = true ∧
    archSupported "x86_64" = true ∧
    archSupported m = false ∧
    (DownloadKubectl homeDir fs0 ⟨"Linux", m⟩ http isArchive version).outcome =
      Outcome.unsupportedArch m := by
  have harch : archSupported m = false := by
    simp [archSupported, h1, h2, h3]
  refine ⟨by decide, by decide, by decide, by decide, by decide, by decide, harch, ?_⟩
  unfold DownloadKubectl
  simp [hv, hfree, harch, osSupported]

/-- Witness for C4 at machine "mips": rejected as unsupported. -/
theorem C4_witness :
    archSupported "mips" = false ∧
    (DownloadKubectl "/h" (fun _ => none) ⟨"Linux", "mips"⟩
      (fun _ => HttpResult.fail) (fun _ => false) "1.18.0").outcome =
      Outcome.unsupportedArch "mips" := by
  have h := C4_arch_mapping "mips" (by decide) (by decide) (by decide)
    "/h" (fun _ => none) (fun _ => HttpResult.fail) (fun _ => false) "1.18.0"
    (by decide) rfl
  exact ⟨h.2.2.2.2.2.2.1, h.2.2.2.2.2.2.2⟩

/-- Claim C5: the OS test accepts exactly the case-sensitive values
"Linux" and "Darwin" (lowercased on success); for any other raw OS
string the install fails with the unsupported-OS error and no HTTP GET
event ever occurs, so the downloader is never invoked. -/
theorem C5_os_mapping (s : String) (h1 : s ≠ "Linux") (h2 : s ≠ "Darwin")
    (m : String) (homeDir : String) (fs0 : FS)
    (http : String → HttpResult) (isArchive : List Nat → Bool)
    (version : String) (hv : version.length ≠ 0)
    (hfree : fs0 (storePath homeDir version) = none) :
    osSupported "Linux" = true ∧ osSupported "Darwin" = true ∧
    strLower "Linux" = "linux" ∧ strLower "Darwin" = "darwin" ∧
    osSupported s = false ∧
    (DownloadKubectl homeDir fs0 ⟨s, m⟩ http isArchive version).outcome =
      Outcome.unsupportedOS s ∧
    (∀ u, Event.httpGet u ∉
      (DownloadKubectl homeDir fs0 ⟨s, m⟩ http isArchive version).events) := by
  have hos : osSupported s = false := by
    simp [osSupported, h1, h2]
  refine ⟨by decide, by decide, by decide, by decide, hos, ?_, ?_⟩ <;>
  · unfold DownloadKubectl
    simp [hv, hfree, hos]

/-- Witness for C5 with OS "Windows": rejected, downloader never runs. -/
theorem C5_witness :
    osSupported "Windows" = false ∧
    (DownloadKubectl "/h" (fun _ => none) ⟨"Windows", "x86_64"⟩
      (fun _ => HttpResult.fail) (fun _ => false) "1.18.0").outcome =
      Outcome.unsupportedOS "Windows" ∧
    (∀ u, Event.httpGet u ∉
      (DownloadKubectl "/h" (fun _ => none) ⟨"Windows", "x86_64"⟩
        (fun _ => HttpResult.fail) (fun _ => false) "1.18.0").events) := by
  have h := C5_os_mapping "Windows" (by decide) (by decide) "x86_64"
    "/h" (fun _ => none) (fun _ => HttpResult.fail) (fun _ => false) "1.18.0"
    (by decide) rfl
  exact ⟨h.2.2.2.2.1, h.2.2.2.2.2.1, h.2.2.2.2.2.2⟩

/-- Claim C6: whenever the pipeline passes validation, the requested
URL is the fixed base templated with version, then os, then arch, in
that order, ending in "kubectl"; concretely, for version "1.18.0" on
linux/amd64 it is the expected Google storage URL. -/
theorem C6_url (homeDir : String) (fs0 : FS) (un : Uname)
    (http : String → HttpResult) (isArchive : List Nat → Bool)
    (version : String) (hv : version.length ≠ 0)
    (hfree : fs0 (storePath homeDir version) = none)
    (hos : osSupported un.sysname = true)
    (harch : archSupported un.machine = true) :
    Event.httpGet (kubectlURL version (strLower un.sysname) (mapMachine un.machine)) ∈
      (DownloadKubectl homeDir fs0 un http isArchive version).events ∧
    kubectlURL "1.18.0" "linux" "amd64" =
      "https://storage.googleapis.com/kubernetes-release/release/1.18.0/bin/linux/amd64/kubectl" := by
  refine ⟨?_, by decide⟩
  unfold DownloadKubectl
  simp only [hv, hfree, hos, harch]
  cases hhttp : http (kubectlURL version (strLower un.sysname) (mapMachine un.machine)) with
  | fail => simp [hv, hfree, hos, harch, hhttp]
  | body chunks interrupted =>
    cases interrupted with
    | true => simp [hv, hfree, hos, harch, hhttp]
    | false =>
      by_cases hgood : isArchive chunks.flatten = true
      · simp [hv, hfree, hos, harch, hhttp, hgood]
      · simp [hv, hfree, hos, harch, hhttp, Bool.eq_false_iff.mpr hgood]

/-- Witness for C6: the concrete 1.18.0 linux/amd64 run issues a GET
for the fully templated URL. -/
theorem C6_witness :
    Event.httpGet (kubectlURL "1.18.0" (strLower "Linux") (mapMachine "x86_64")) ∈
      (DownloadKubectl "/h" (fun _ => none) ⟨"Linux", "x86_64"⟩
        (fun _ => HttpResult.body [[1]] false) (fun _ => true) "1.18.0").events ∧
    kubectlURL "1.18.0" "linux" "amd64" =
      "https://storage.googleapis.com/kubernetes-release/release/1.18.0/bin/linux/amd64/kubectl" :=
  C6_url "/h" (fun _ => none) ⟨"Linux", "x86_64"⟩ (fun _ => HttpResult.body [[1]] false)
    (fun _ => true) "1.18.0" (by decide) rfl (by decide) (by decide)

/-- Counterexample to claim C1 as stated, at two concrete runs.  On an
unsupported-OS run ("Windows") the attempt fails, yet content (the
zero-byte destination file created before platform validation) is
observable at the final store path.  On a Linux run whose download is
cut off mid-stream after the bytes `[1, 2]` were written, the attempt
fails with a network error, yet those partially downloaded, unverified
bytes are observable at the final store path.  So visibility at the
final path does not imply that the full pipeline succeeded. -/
theorem C1_counterexample :
    (((DownloadKubectl "/h" (fun _ => none) ⟨"Windows", "x86_64"⟩
      (fun _ => HttpResult.fail) (fun _ => false) "1.18.0").fs
        (storePath "/h" "1.18.0")).isSome = true ∧
    (DownloadKubectl "/h" (fun _ => none) ⟨"Windows", "x86_64"⟩
      (fun _ => HttpResult.fail) (fun _ => false) "1.18.0").outcome ≠
        Outcome.success) ∧
    ((DownloadKubectl "/h" (fun _ => none) ⟨"Linux", "x86_64"⟩
      (fun _ => HttpResult.body [[1, 2]] true) (fun _ => false) "1.18.0").fs
        (storePath "/h" "1.18.0") = some ⟨[1, 2], createMode⟩ ∧
    (DownloadKubectl "/h" (fun _ => none) ⟨"Linux", "x86_64"⟩
      (fun _ => HttpResult.body [[1, 2]] true) (fun _ => false) "1.18.0").outcome =
        Outcome.networkError ∧
    Outcome.networkError ≠ Outcome.success) := by
  decide

/-- Claim C1 amended: the destination file lives at the final store
path for the whole attempt, so unverified content is observable there
on failure: after an unsupported-OS or unsupported-arch failure a
zero-byte file remains at the final path; after a network failure the
file holds exactly the bytes delivered before the failure (zero bytes
when `http.Get` itself failed, the partially downloaded prefix when
the copy died mid-stream); only on verifier rejection is it deleted;
and on success the verified body with mode 0755 is at the final
path. -/
theorem C1_amended (homeDir : String) (fs0 : FS) (un : Uname)
    (http : String → HttpResult) (isArchive : List Nat → Bool)
    (version : String) :
    (∀ s, (DownloadKubectl homeDir fs0 un http isArchive version).outcome =
        Outcome.unsupportedOS s →
      (DownloadKubectl homeDir fs0 un http isArchive version).fs
        (storePath homeDir version) = some ⟨[], createMode⟩) ∧
    (∀ s, (DownloadKubectl homeDir fs0 un http isArchive version).outcome =
        Outcome.unsupportedArch s →
      (DownloadKubectl homeDir fs0 un http isArchive version).fs
        (storePath homeDir version) = some ⟨[], createMode⟩) ∧
    ((DownloadKubectl homeDir fs0 un http isArchive version).outcome =
        Outcome.networkError →
      (DownloadKubectl homeDir fs0 un http isArchive version).fs
        (storePath homeDir version) = some ⟨[], createMode⟩ ∨
      ∃ chunks,
        http (kubectlURL version (strLower un.sysname) (mapMachine un.machine)) =
          HttpResult.body chunks true ∧
        (DownloadKubectl homeDir fs0 un http isArchive version).fs
          (storePath homeDir version) = some ⟨chunks.flatten, createMode⟩) ∧
    ((DownloadKubectl homeDir fs0 un http isArchive version).outcome =
        Outcome.invalidBinaryContent →
      (DownloadKubectl homeDir fs0 un http isArchive version).fs
        (storePath homeDir version) = none) ∧
    ((DownloadKubectl homeDir fs0 un http isArchive version).outcome =
        Outcome.success →
      ∃ b, isArchive b = true ∧
        (DownloadKubectl homeDir fs0 un http isArchive version).fs
          (storePath homeDir version) = some ⟨b, 0o755⟩) := by
  by_cases hv : version.length = 0
  · simp [DownloadKubectl, hv]
  by_cases hex : (fs0 (storePath homeDir version)).isSome = true
  · simp [DownloadKubectl, hv, hex]
  by_cases hos : osSupported un.sysname = true
  · by_cases harch : archSupported un.machine = true
    · cases hhttp : http (kubectlURL version (strLower un.sysname) (mapMachine un.machine)) with
      | fail => simp [DownloadKubectl, hv, hex, hos, harch, hhttp, setFile]
      | body chunks interrupted =>
        cases interrupted with
        | true =>
          refine ⟨?_, ?_, fun _ => Or.inr ⟨chunks, rfl, ?_⟩, ?_, ?_⟩ <;>
            simp [DownloadKubectl, hv, hex, hos, harch, hhttp, setFile]
        | false =>
          by_cases hgood : isArchive chunks.flatten = true
          · refine ⟨?_, ?_, ?_, ?_, ?_⟩ <;>
              simp [DownloadKubectl, hv, hex, hos, harch, hhttp, hgood, setFile, delFile]
          · rw [Bool.not_eq_true] at hgood
            simp [DownloadKubectl, hv, hex, hos, harch, hhttp, hgood, setFile, delFile]
    · rw [Bool.not_eq_true] at harch
      simp [DownloadKubectl, hv, hex, hos, harch, setFile]
  · rw [Bool.not_eq_true] at hos
    simp [DownloadKubectl, hv, hex, hos, setFile]

/-- Witness for C1 (amended): on the concrete "Windows" run the
zero-byte file is left at the final path, and on the concrete
interrupted-download run the network-failure clause yields the
partially written file. -/
theorem C1_witness :
    (DownloadKubectl "/h" (fun _ => none) ⟨"Windows", "x86_64"⟩
      (fun _ => HttpResult.fail) (fun _ => false) "1.18.0").fs (storePath "/h" "1.18.0") =
      some ⟨[], createMode⟩ ∧
    ((DownloadKubectl "/h" (fun _ => none) ⟨"Linux", "x86_64"⟩
      (fun _ => HttpResult.body [[1, 2]] true) (fun _ => false) "1.18.0").fs
        (storePath "/h" "1.18.0") = some ⟨[], createMode⟩ ∨
    ∃ chunks, HttpResult.body [[1, 2]] true = HttpResult.body chunks true ∧
      (DownloadKubectl "/h" (fun _ => none) ⟨"Linux", "x86_64"⟩
        (fun _ => HttpResult.body [[1, 2]] true) (fun _ => false) "1.18.0").fs
        (storePath "/h" "1.18.0") = some ⟨chunks.flatten, createMode⟩) :=
  ⟨(C1_amended "/h" (fun _ => none) ⟨"Windows", "x86_64"⟩
      (fun _ => HttpResult.fail) (fun _ => false) "1.18.0").1 "Windows" (by decide),
   (C1_amended "/h" (fun _ => none) ⟨"Linux", "x86_64"⟩
      (fun _ => HttpResult.body [[1, 2]] true) (fun _ => false) "1.18.0").2.2.1
      (by decide)⟩

/-- Counterexample to claim C2 as stated: on a concrete successful run
the existence check (`stat`) happens strictly before platform
detection, not after it — so the claimed order "platform detection
first, then the existence check" is false. -/
theorem C2_counterexample :
    Event.detect ∈ (DownloadKubectl "/h" (fun _ => none) ⟨"Linux", "x86_64"⟩
      (fun _ => HttpResult.body [[1]] false) (fun _ => true) "1.18.0").events ∧
    Event.stat (storePath "/h" "1.18.0") ∈
      (DownloadKubectl "/h" (fun _ => none) ⟨"Linux", "x86_64"⟩
        (fun _ => HttpResult.body [[1]] false) (fun _ => true) "1.18.0").events ∧
    occursBefore Event.detect (Event.stat (storePath "/h" "1.18.0"))
      (DownloadKubectl "/h" (fun _ => none) ⟨"Linux", "x86_64"⟩
        (fun _ => HttpResult.body [[1]] false) (fun _ => true) "1.18.0").events = false ∧
    occursBefore (Event.stat (storePath "/h" "1.18.0")) Event.detect
      (DownloadKubectl "/h" (fun _ => none) ⟨"Linux", "x86_64"⟩
        (fun _ => HttpResult.body [[1]] false) (fun _ => true) "1.18.0").events = true := by
  decide

/-- Claim C2 amended: a fully successful install attempt performs its
steps in the order: version-store existence check first, then creation
of the destination file, then platform detection, then the download,
then verification, then finalization (chmod, then the self-rename). -/
theorem C2_order (homeDir : String) (fs0 : FS) (un : Uname)
    (http : String → HttpResult) (isArchive : List Nat → Bool)
    (version : String) (chunks : List (List Nat)) (hv : version.length ≠ 0)
    (hfree : fs0 (storePath homeDir version) = none)
    (hos : osSupported un.sysname = true)
    (harch : archSupported un.machine = true)
    (hhttp : http (kubectlURL version (strLower un.sysname) (mapMachine un.machine)) =
      HttpResult.body chunks false)
    (hgood : isArchive chunks.flatten = true) :
    (DownloadKubectl homeDir fs0 un http isArchive version).events =
      [Event.stat (storePath homeDir version),
       Event.create (storePath homeDir version),
       Event.detect,
       Event.httpGet (kubectlURL version (strLower un.sysname) (mapMachine un.machine)),
       Event.verify (storePath homeDir version),
       Event.chmod (storePath homeDir version) 0o755,
       Event.rename (storePath homeDir version) (storePath homeDir version)] := by
  unfold DownloadKubectl
  simp [hv, hfree, hos, harch, hhttp, hgood]

/-- Witness for C2 (amended) on a concrete successful run. -/
theorem C2_witness :
    (DownloadKubectl "/h" (fun _ => none) ⟨"Linux", "x86_64"⟩
      (fun _ => HttpResult.body [[1]] false) (fun _ => true) "1.18.0").events =
      [Event.stat (storePath "/h" "1.18.0"),
       Event.create (storePath "/h" "1.18.0"),
       Event.detect,
       Event.httpGet (kubectlURL "1.18.0" (strLower "Linux") (mapMachine "x86_64")),
       Event.verify (storePath "/h" "1.18.0"),
       Event.chmod (storePath "/h" "1.18.0") 0o755,
       Event.rename (storePath "/h" "1.18.0") (storePath "/h" "1.18.0")] :=
  C2_order "/h" (fun _ => none) ⟨"Linux", "x86_64"⟩ (fun _ => HttpResult.body [[1]] false)
    (fun _ => true) "1.18.0" [[1]] (by decide) rfl (by decide) (by decide) rfl rfl

/-- Counterexample to claim C7 as stated: on a concrete rejected
download both the removal and the failure report occur, but the file
removal does NOT precede the report — the code prints the failure
message first and deletes the file afterwards. -/
theorem C7_counterexample :
    Event.remove (storePath "/h" "1.18.0") ∈
      (DownloadKubectl "/h" (fun _ => none) ⟨"Linux", "x86_64"⟩
        (fun _ => HttpResult.body [[72]] false) (fun _ => false) "1.18.0").events ∧
    Event.report invalidBinaryMsg ∈
      (DownloadKubectl "/h" (fun _ => none) ⟨"Linux", "x86_64"⟩
        (fun _ => HttpResult.body [[72]] false) (fun _ => false) "1.18.0").events ∧
    occursBefore (Event.remove (storePath "/h" "1.18.0"))
      (Event.report invalidBinaryMsg)
      (DownloadKubectl "/h" (fun _ => none) ⟨"Linux", "x86_64"⟩
        (fun _ => HttpResult.body [[72]] false) (fun _ => false) "1.18.0").events = false := by
  decide

/-- Claim C7 amended: when the verifier rejects the downloaded bytes
the install fails with the invalid-binary-content outcome, the failure
message is reported first and the destination file is deleted after
reporting (before the attempt terminates), so the file no longer
exists at the store path afterwards. -/
theorem C7_verifier_reject (homeDir : String) (fs0 : FS) (un : Uname)
    (http : String → HttpResult) (isArchive : List Nat → Bool)
    (version : String) (chunks : List (List Nat)) (hv : version.length ≠ 0)
    (hfree : fs0 (storePath homeDir version) = none)
    (hos : osSupported un.sysname = true)
    (harch : archSupported un.machine = true)
    (hhttp : http (kubectlURL version (strLower un.sysname) (mapMachine un.machine)) =
      HttpResult.body chunks false)
    (hbad : isArchive chunks.flatten = false) :
    (DownloadKubectl homeDir fs0 un http isArchive version).outcome =
      Outcome.invalidBinaryContent ∧
    (DownloadKubectl homeDir fs0 un http isArchive version).fs
      (storePath homeDir version) = none ∧
    occursBefore (Event.report invalidBinaryMsg)
      (Event.remove (storePath homeDir version))
      (DownloadKubectl homeDir fs0 un http isArchive version).events = true := by
  unfold DownloadKubectl
  simp [hv, hfree, hos, harch, hhttp, hbad, delFile, occursBefore]

/-- Witness for C7 (amended) on a concrete rejected download. -/
theorem C7_witness :
    (DownloadKubectl "/h" (fun _ => none) ⟨"Linux", "x86_64"⟩
      (fun _ => HttpResult.body [[72]] false) (fun _ => false) "1.18.0").outcome =
      Outcome.invalidBinaryContent ∧
    (DownloadKubectl "/h" (fun _ => none) ⟨"Linux", "x86_64"⟩
      (fun _ => HttpResult.body [[72]] false) (fun _ => false) "1.18.0").fs
      (storePath "/h" "1.18.0") = none ∧
    occursBefore (Event.report invalidBinaryMsg)
      (Event.remove (storePath "/h" "1.18.0"))
      (DownloadKubectl "/h" (fun _ => none) ⟨"Linux", "x86_64"⟩
        (fun _ => HttpResult.body [[72]] false) (fun _ => false) "1.18.0").events = true :=
  C7_verifier_reject "/h" (fun _ => none) ⟨"Linux", "x86_64"⟩
    (fun _ => HttpResult.body [[72]] false) (fun _ => false) "1.18.0" [[72]]
    (by decide) rfl (by decide) (by decide) rfl rfl

/-- Claim C8: when the verifier accepts the downloaded bytes the
install succeeds: the file at the store path for that version holds the
downloaded body with mode 0755, whose bits include execute permission
for owner, group, and other (0o111). -/
theorem C8_success (homeDir : String) (fs0 : FS) (un : Uname)
    (http : String → HttpResult) (isArchive : List Nat → Bool)
    (version : String) (chunks : List (List Nat)) (hv : version.length ≠ 0)
    (hfree : fs0 (storePath homeDir version) = none)
    (hos : osSupported un.sysname = true)
    (harch : archSupported un.machine = true)
    (hhttp : http (kubectlURL version (strLower un.sysname) (mapMachine un.machine)) =
      HttpResult.body chunks false)
    (hgood : isArchive chunks.flatten = true) :
    (DownloadKubectl homeDir fs0 un http isArchive version).outcome =
      Outcome.success ∧
    (DownloadKubectl homeDir fs0 un http isArchive version).fs
      (storePath homeDir version) = some ⟨chunks.flatten, 0o755⟩ ∧
    Nat.land 0o755 0o111 = 0o111 := by
  refine ⟨?_, ?_, by decide⟩ <;>
  · unfold DownloadKubectl
    simp [hv, hfree, hos, harch, hhttp, hgood, setFile]

/-- Witness for C8 on a concrete accepted download. -/
theorem C8_witness :
    (DownloadKubectl "/h" (fun _ => none) ⟨"Linux", "x86_64"⟩
      (fun _ => HttpResult.body [[1, 2]] false) (fun _ => true) "1.18.0").outcome =
      Outcome.success ∧
    (DownloadKubectl "/h" (fun _ => none) ⟨"Linux", "x86_64"⟩
      (fun _ => HttpResult.body [[1, 2]] false) (fun _ => true) "1.18.0").fs
      (storePath "/h" "1.18.0") = some ⟨[1, 2], 0o755⟩ ∧
    Nat.land 0o755 0o111 = 0o111 :=
  C8_success "/h" (fun _ => none) ⟨"Linux", "x86_64"⟩ (fun _ => HttpResult.body [[1, 2]] false)
    (fun _ => true) "1.18.0" [[1, 2]] (by decide) rfl (by decide) (by decide) rfl rfl

/-- Claim C10: for a version not already installed, when the attempt
fails on platform validation (OS or arch unsupported), a zero-byte file
has already been created at the final store path before detection ran
(the create event precedes the detect event), and this failure path
never removes it: the empty file is still present afterwards. -/
theorem C10_residual_file (homeDir : String) (fs0 : FS) (un : Uname)
    (http : String → HttpResult) (isArchive : List Nat → Bool)
    (version : String) (hv : version.length ≠ 0)
    (hfree : fs0 (storePath homeDir version) = none)
    (hbad : osSupported un.sysname = false ∨ archSupported un.machine = false) :
    (DownloadKubectl homeDir fs0 un http isArchive version).fs
      (storePath homeDir version) = some ⟨[], createMode⟩ ∧
    occursBefore (Event.create (storePath homeDir version)) Event.detect
      (DownloadKubectl homeDir fs0 un http isArchive version).events = true ∧
    Event.remove (storePath homeDir version) ∉
      (DownloadKubectl homeDir fs0 un http isArchive version).events ∧
    ((DownloadKubectl homeDir fs0 un http isArchive version).outcome =
        Outcome.unsupportedOS un.sysname ∨
     (DownloadKubectl homeDir fs0 un http isArchive version).outcome =
        Outcome.unsupportedArch un.machine) := by
  cases hbad with
  | inl h =>
    unfold DownloadKubectl
    simp [hv, hfree, h, setFile, occursBefore]
  | inr h =>
    by_cases hos : osSupported un.sysname = true
    · unfold DownloadKubectl
      simp [hv, hfree, hos, h, setFile, occursBefore]
    · rw [Bool.not_eq_true] at hos
      unfold DownloadKubectl
      simp [hv, hfree, hos, setFile, occursBefore]

/-- Witness for C10 on the concrete "Windows" run: the empty file is
left behind at the final store path. -/
theorem C10_witness :
    (DownloadKubectl "/h" (fun _ => none) ⟨"Windows", "x86_64"⟩
      (fun _ => HttpResult.fail) (fun _ => false) "1.18.0").fs
      (storePath "/h" "1.18.0") = some ⟨[], createMode⟩ ∧
    occursBefore (Event.create (storePath "/h" "1.18.0")) Event.detect
      (DownloadKubectl "/h" (fun _ => none) ⟨"Windows", "x86_64"⟩
        (fun _ => HttpResult.fail) (fun _ => false) "1.18.0").events = true ∧
    Event.remove (storePath "/h" "1.18.0") ∉
      (DownloadKubectl "/h" (fun _ => none) ⟨"Windows", "x86_64"⟩
        (fun _ => HttpResult.fail) (fun _ => false) "1.18.0").events :=
  have h := C10_residual_file "/h" (fun _ => none) ⟨"Windows", "x86_64"⟩
    (fun _ => HttpResult.fail) (fun _ => false) "1.18.0" (by decide) rfl (Or.inl (by decide))
  ⟨h.1, h.2.1, h.2.2.1⟩

/-- As long as the exact running total never reaches 2^64, the wrapped
`uint64` accumulation of `WriteCounter` agrees with exact arithmetic:
the final counter is `acc` plus the sum of the chunk sizes and the
reported values are the exact running totals. -/
theorem runWrites_no_overflow (chunks : List (List Nat)) :
    ∀ acc : Nat, acc + (chunks.map List.length).sum < u64Mod →
    runWrites acc chunks =
      (acc + (chunks.map List.length).sum,
       runningTotals acc (chunks.map List.length)) := by
  induction chunks with
  | nil => intro acc h; simp [runWrites, runningTotals]
  | cons c rest ih =>
    intro acc h
    simp only [List.map_cons, List.sum_cons] at h
    have h1 : acc + c.length < u64Mod := by omega
    have h2 : (acc + c.length) + (rest.map List.length).sum < u64Mod := by omega
    simp only [runWrites, wcWrite, List.map_cons, List.sum_cons, runningTotals,
      Nat.mod_eq_of_lt h1, ih (acc + c.length) h2]
    rw [Nat.add_assoc]

/-- The exact running totals form a `≤`-chain above their base. -/
theorem runningTotals_chain (l : List Nat) :
    ∀ acc : Nat, List.Chain (fun a b => a ≤ b) acc (runningTotals acc l) := by
  induction l with
  | nil => intro acc; simp [runningTotals]
  | cons s rest ih =>
    intro acc
    exact List.Chain.cons (Nat.le_add_right acc s) (ih (acc + s))

/-- Consecutive exact running totals are non-decreasing. -/
theorem runningTotals_chain_le (l : List Nat) (acc : Nat) :
    List.Chain' (fun a b => a ≤ b) (runningTotals acc l) := by
  cases l with
  | nil => simp [runningTotals]
  | cons s rest =>
    show List.Chain' (fun a b => a ≤ b) ((acc + s) :: runningTotals (acc + s) rest)
    exact List.chain'_cons'.mpr
      ⟨fun b hb => by
        have hc := runningTotals_chain rest (acc + s)
        cases rest with
        | nil => simp [runningTotals] at hb
        | cons t ts =>
          simp [runningTotals] at hb
          cases hc with
          | cons hab _ => simpa [hb] using hab,
       runningTotals_chain_le rest (acc + s)⟩

/-- One running total per size, in order. -/
theorem runningTotals_length (l : List Nat) :
    ∀ acc : Nat, (runningTotals acc l).length = l.length := by
  induction l with
  | nil => intro acc; simp [runningTotals]
  | cons s rest ih => intro acc; simp [runningTotals, ih]

/-- Claim C9: for chunk writes of sizes `s1..sn` through the progress
counter (with the exact total below 2^64, so the `uint64` cannot wrap),
the final cumulative total equals `s1 + ... + sn`, progress is reported
exactly once after every write, in order, with the exact running totals
as reported values, and the reported counter values are monotonically
non-decreasing. -/
theorem C9_progress (chunks : List (List Nat))
    (h : (chunks.map List.length).sum < u64Mod) :
    (runWrites 0 chunks).1 = (chunks.map List.length).sum ∧
    (runWrites 0 chunks).2 = runningTotals 0 (chunks.map List.length) ∧
    (runWrites 0 chunks).2.length = chunks.length ∧
    List.Chain' (fun a b => a ≤ b) (runWrites 0 chunks).2 := by
  have key := runWrites_no_overflow chunks 0 (by simpa using h)
  rw [key]
  refine ⟨by simp, rfl, ?_, runningTotals_chain_le _ _⟩
  simp [runningTotals_length]

/-- Witness for C9 on chunks of sizes 2, 1, 3: total 6, reports
[2, 3, 6]. -/
theorem C9_witness :
    (([[0, 1], [2], [3, 4, 5]] : List (List Nat)).map List.length).sum < u64Mod ∧
    (runWrites 0 [[0, 1], [2], [3, 4, 5]]).1 = 6 ∧
    (runWrites 0 [[0, 1], [2], [3, 4, 5]]).2 = [2, 3, 6] := by
  have h := C9_progress [[0, 1], [2], [3, 4, 5]] (by decide)
  refine ⟨by decide, ?_, ?_⟩
  · rw [h.1]; decide
  · rw [h.2.1]; decide

end Kubemngr
